import Mathlib

/-
  Shallow embedding of the Kargo analytics adapter for Prebid.js
  (modules/kargoAnalyticsAdapter.js): a per-auction telemetry aggregator
  that ingests lifecycle events, maintains a cache of auction records and
  emits an auction payload (debounced after auction-end) plus win payloads.

  JavaScript numbers are modelled as rationals (Rat); `undefined`/absent
  fields as Option; JS objects keyed by strings as insertion-ordered
  association lists (updates in place, inserts append, matching the
  enumeration order of JS string-keyed objects).
-/

namespace KargoAnalytics

/-! ### JS truthiness and number formatting helpers -/

/-- Truthiness of an optional string: JS treats undefined and "" as falsy. -/
def strTruthy : Option String → Bool
  | some s => s ≠ ""
  | none => false

/-- Truthiness of an optional number: JS treats undefined and 0 as falsy. -/
def qTruthy : Option ℚ → Bool
  | some q => q ≠ 0
  | none => false

/-- Truthiness of an optional integer (width/height fields). -/
def intTruthy : Option ℤ → Bool
  | some n => n ≠ 0
  | none => false

/-- JS `x > 0` on a possibly-undefined number (undefined compares false). -/
def optGt0 : Option ℚ → Bool
  | some q => q > 0
  | none => false

/-- Floor of a rational (numerator Euclidean-divided by the denominator). -/
def ratFloor (q : ℚ) : ℤ := Int.ediv q.num q.den

/-- Rounding to the nearest integer, ties toward positive infinity: the
    rounding JS toFixed applies to the scaled value ("if there are two such n,
    pick the larger n"). -/
def jsRound (q : ℚ) : ℤ := ratFloor (q + 1 / 2)

/-- `parseFloat(Number(q).toFixed(3))`: round to 3 fractional digits. -/
def toFixed3 (q : ℚ) : ℚ := ((jsRound (q * 1000) : ℤ) : ℚ) / 1000

/-- `parseFloat(x.toFixed(2))`: round to 2 fractional digits. -/
def toFixed2 (q : ℚ) : ℚ := ((jsRound (q * 100) : ℤ) : ℚ) / 100

/-- JS String.prototype.toUpperCase (ASCII suffices for currency codes). -/
def jsToUpper (s : String) : String := String.mk (s.data.map Char.toUpper)

/-- `x || y` on optional rationals: keep x only when truthy, else null. -/
def orQNull (o : Option ℚ) : Option ℚ := if qTruthy o then o else none

/-! ### Insertion-ordered association lists (JS string-keyed objects) -/

/-- Lookup by key (first match; keys are unique by construction). -/
def alookup {α : Type} (k : String) : List (String × α) → Option α
  | [] => none
  | (k', v) :: t => if k' = k then some v else alookup k t

/-- JS object assignment o[k] = v: overwrite in place, else append. -/
def upsert {α : Type} (k : String) (v : α) : List (String × α) → List (String × α)
  | [] => [(k, v)]
  | (k', v') :: t => if k' = k then (k, v) :: t else (k', v') :: upsert k v t

/-- JS `delete o[k]`. -/
def removeKey {α : Type} (k : String) : List (String × α) → List (String × α)
  | [] => []
  | (k', v') :: t => if k' = k then t else (k', v') :: removeKey k t

/-- Map over the values of an association list. -/
def mapVal {α β : Type} (f : α → β) (l : List (String × α)) : List (String × β) :=
  l.map fun p => (p.1, f p.2)

/-! ### Constants (source lines 9-22) -/

def KARGO_BIDDER_CODE : String := "kargo"
def ANALYTICS_VERSION : String := "2.0"
def SEND_DELAY : ℚ := 500

/-! ### Configuration and sampling -/

structure Config where
  sampling : ℚ
  sendWinEvents : Bool
  sendDelay : ℚ
deriving DecidableEq, Repr

def DEFAULT_CONFIG : Config := { sampling := 100, sendWinEvents := true, sendDelay := SEND_DELAY }

/-- Options object passed to enableAnalytics (spread over the defaults). -/
structure AnalyticsOptions where
  sampling : Option ℚ := none
  sendWinEvents : Option Bool := none
  sendDelay : Option ℚ := none
deriving DecidableEq, Repr

/-- shouldSample (source lines 37-40): samplingRate = config.sampling || 100;
    Math.random() * 100 < samplingRate, with rand the drawn random in [0,1). -/
def shouldSample (cfg : Config) (rand : ℚ) : Bool :=
  let samplingRate : ℚ := if cfg.sampling = 0 then 100 else cfg.sampling
  rand * 100 < samplingRate

/-- enableAnalytics config intake (source lines 670-688): spread options over
    defaults, clamp invalid sampling (outside [1,100]) back to 100, then decide
    session sampling once. Returns the config and the sampled flag. -/
def enableAnalytics (opts : AnalyticsOptions) (rand : ℚ) : Config × Bool :=
  let cfg : Config :=
    { sampling := opts.sampling.getD DEFAULT_CONFIG.sampling
      sendWinEvents := opts.sendWinEvents.getD DEFAULT_CONFIG.sendWinEvents
      sendDelay := opts.sendDelay.getD DEFAULT_CONFIG.sendDelay }
  let cfg := if cfg.sampling < 1 ∨ cfg.sampling > 100 then { cfg with sampling := 100 } else cfg
  (cfg, shouldSample cfg rand)

/-! ### Consent extraction (source lines 87-119) -/

structure GdprConsentArg where
  gdprApplies : Bool
  consentString : Option String
deriving DecidableEq, Repr

structure GppConsentArg where
  gppString : Option String
  applicableSections : List ℤ
deriving DecidableEq, Repr

structure RefererInfo where
  topmostLocation : Option String := none
  page : Option String := none
deriving DecidableEq, Repr

/-- A bidder request entry of the auction-init event. -/
structure BidderRequest where
  bidderCode : String
  refererInfo : Option RefererInfo := none
  gdprConsent : Option GdprConsentArg := none
  uspConsent : Option String := none
  gppConsent : Option GppConsentArg := none
  coppa : Bool := false
deriving DecidableEq, Repr

structure ConsentGdpr where
  applies : Bool
  consentString : Option String
deriving DecidableEq, Repr

structure ConsentGpp where
  gppString : Option String
  applicableSections : List ℤ
deriving DecidableEq, Repr

/-- Normalized consent snapshot; a None field models the JS key being absent. -/
structure Consent where
  gdpr : Option ConsentGdpr := none
  usp : Option String := none
  gpp : Option ConsentGpp := none
  coppa : Bool := false
deriving DecidableEq, Repr

/-- extractConsent: GDPR string reduced to a "[present]" marker, USP copied
    as-is, GPP string reduced to a marker; null when no key was set. -/
def extractConsent : Option BidderRequest → Option Consent
  | none => none
  | some br =>
    let gdpr : Option ConsentGdpr := br.gdprConsent.map fun g =>
      { applies := g.gdprApplies
        consentString := if strTruthy g.consentString then some "[present]" else none }
    let usp : Option String := if strTruthy br.uspConsent then br.uspConsent else none
    let gpp : Option ConsentGpp := br.gppConsent.map fun g =>
      { gppString := if strTruthy g.gppString then some "[present]" else none
        applicableSections := g.applicableSections }
    if gdpr.isSome || usp.isSome || gpp.isSome || br.coppa then
      some { gdpr := gdpr, usp := usp, gpp := gpp, coppa := br.coppa }
    else none

/-! ### Currency conversion (source lines 45-63) -/

structure HighestBid where
  auctionId : String
  adUnitCode : String
  bidderCode : String := ""
  cpm : Option ℚ := none
  currency : Option String := none
  requestId : String := ""
deriving DecidableEq, Repr

/-- Host environment: the optional global convertCurrency function (returning
    none models the call throwing, which the source catches) and the
    getHighestCpmBids query (none models the query throwing). -/
structure Env where
  convertCurrency : Option (ℚ → String → Option ℚ) := none
  getHighestCpmBids : Option (List HighestBid) := some []

/-- convertToUsd: null when cpm falsy or non-positive; identity rounding for
    USD or missing currency; converted value when the host function exists and
    succeeds; otherwise graceful fallback to the original value (both when the
    function is absent and when it throws). Always 3 fractional digits. -/
def convertToUsd (env : Env) (cpm : Option ℚ) (currency : Option String) : Option ℚ :=
  match cpm with
  | none => none
  | some c =>
    if c ≤ 0 then none
    else if !(strTruthy currency) || jsToUpper (currency.getD "") == "USD" then
      some (toFixed3 c)
    else
      match env.convertCurrency with
      | some f =>
        match f c (currency.getD "") with
        | some v => some (toFixed3 v)
        | none => some (toFixed3 c)
      | none => some (toFixed3 c)

/-! ### Sizes (source lines 68-82) -/

/-- An element of a JS size array: a number or a nested [w, h] pair array. -/
inductive SizeElem
  | num (n : ℤ)
  | pair (l : List ℤ)
deriving DecidableEq, Repr

/-- A JS size value as stored (an array). -/
abbrev Size := List SizeElem

structure BannerMT where
  sizes : Option (List Size) := none
deriving DecidableEq, Repr

structure VideoMT where
  playerSize : Option Size := none
deriving DecidableEq, Repr

structure MediaTypesArg where
  banner : Option BannerMT := none
  video : Option VideoMT := none
  native : Option Unit := none
deriving DecidableEq, Repr

/-- Object.keys of a mediaTypes object (canonical banner/video/native order). -/
def mtKeys : Option MediaTypesArg → List String
  | none => []
  | some m =>
    (if m.banner.isSome then ["banner"] else [])
      ++ (if m.video.isSome then ["video"] else [])
      ++ (if m.native.isSome then ["native"] else [])

/-- extractSizes: banner sizes, plus the video player size (first element when
    it is a nested array, else the flat array itself). -/
def extractSizes : Option MediaTypesArg → List Size
  | none => []
  | some m =>
    let fromBanner : List Size :=
      match m.banner with
      | some b => b.sizes.getD []
      | none => []
    let fromVideo : List Size :=
      match m.video with
      | some v =>
        match v.playerSize with
        | some ps =>
          match ps.head? with
          | some (SizeElem.pair a) => [a.map SizeElem.num]
          | _ => [ps]
        | none => []
      | none => []
    fromBanner ++ fromVideo

/-! ### Cache data model (source lines 24-27, 164-192) -/

inductive BidStatus
  | pending
  | received
  | noBid
  | timeout
  | error
deriving DecidableEq, Repr

/-- A cached bid entry; default field values model JS undefined. -/
structure BidRecord where
  bidder : String := ""
  bidId : String := ""
  status : BidStatus := BidStatus.pending
  requestTimestamp : Option ℕ := none
  isKargo : Bool := false
  cpm : Option ℚ := none
  currency : Option String := none
  cpmUsd : Option ℚ := none
  responseTime : Option ℚ := none
  mediaType : Option String := none
  size : Option String := none
  dealId : Option String := none
  advertiserDomains : Option (List String) := none
  won : Bool := false
  serverResponseTime : Option ℚ := none
deriving DecidableEq, Repr

structure AdUnitRecord where
  code : String
  mediaTypes : List String
  sizes : List Size
  bids : List (String × BidRecord)
  status : String
deriving DecidableEq, Repr

structure ReceivedEntry where
  adUnitCode : String
  bidder : String
  cpm : Option ℚ
  cpmUsd : Option ℚ
deriving DecidableEq, Repr

structure NoBidEntry where
  adUnitCode : String
  bidder : String
deriving DecidableEq, Repr

structure ErrorDetail where
  message : String
  status : Option ℤ
deriving DecidableEq, Repr

structure ErrorEntry where
  bidder : String
  error : ErrorDetail
  timestamp : ℕ
deriving DecidableEq, Repr

structure WinningBid where
  bidder : String
  cpm : Option ℚ
  cpmUsd : Option ℚ
  bidId : String
  won : Bool := false
deriving DecidableEq, Repr

structure AuctionRecord where
  timestamp : ℕ
  timeout : Option ℚ
  adUnits : List (String × AdUnitRecord)
  bidderRequests : List String
  bidsReceived : List ReceivedEntry
  noBids : List NoBidEntry
  timeouts : List NoBidEntry
  errors : List ErrorEntry
  winningBids : List (String × WinningBid)
  consent : Option Consent
  referer : Option String
  sent : Bool
  endTimestamp : Option ℕ := none
  duration : Option ℤ := none
deriving DecidableEq, Repr

/-- cache.auctions: Map from auctionId to AuctionRecord. -/
abbrev Cache := List (String × AuctionRecord)

/-! ### Event argument shapes -/

structure AdUnitArg where
  code : String
  mediaTypes : Option MediaTypesArg := none
  sizes : Option (List Size) := none
deriving DecidableEq, Repr

/-- AUCTION_INIT args; auctionId = "" models a falsy/missing auctionId. -/
structure AuctionInitArgs where
  auctionId : String
  timeout : Option ℚ := none
  adUnits : Option (List AdUnitArg) := none
  bidderRequests : Option (List BidderRequest) := none
deriving DecidableEq, Repr

structure BidReqBid where
  bidId : String
  adUnitCode : String
deriving DecidableEq, Repr

structure BidRequestedArgs where
  auctionId : String
  bidderCode : String
  bids : Option (List BidReqBid) := none
deriving DecidableEq, Repr

structure MetaArg where
  advertiserDomains : Option (List String) := none
deriving DecidableEq, Repr

structure BidResponseArgs where
  auctionId : String
  adUnitCode : String
  bidder : String := ""
  bidderCode : String := ""
  requestId : String
  originalRequestId : String := ""
  cpm : Option ℚ := none
  currency : Option String := none
  timeToRespond : Option ℚ := none
  mediaType : Option String := none
  width : Option ℤ := none
  height : Option ℤ := none
  dealId : Option String := none
  meta : Option MetaArg := none
deriving DecidableEq, Repr

structure NoBidArgs where
  auctionId : String
  adUnitCode : String
  bidder : String := ""
  bidId : String := ""
deriving DecidableEq, Repr

structure TimeoutEntry where
  auctionId : String
  adUnitCode : String
  bidder : String := ""
  bidId : String := ""
deriving DecidableEq, Repr

structure BidderDoneBid where
  adUnitCode : String
  bidId : String
  serverResponseTimeMs : Option ℚ := none
deriving DecidableEq, Repr

structure BidderDoneArgs where
  auctionId : String
  bids : Option (List BidderDoneBid) := none
deriving DecidableEq, Repr

structure ErrObj where
  message : Option String := none
  status : Option ℤ := none
deriving DecidableEq, Repr

structure NestedBidderRequest where
  auctionId : String := ""
deriving DecidableEq, Repr

structure BidderErrorArgs where
  auctionId : String := ""
  bidderCode : String := ""
  error : Option ErrObj := none
  bidderRequest : Option NestedBidderRequest := none
deriving DecidableEq, Repr

structure AuctionEndArgs where
  auctionId : String
deriving DecidableEq, Repr

structure BidWonArgs where
  auctionId : String
  adUnitCode : String
  bidderCode : String := ""
  cpm : Option ℚ := none
  currency : Option String := none
  requestId : String := ""
deriving DecidableEq, Repr

/-! ### Event handlers (source lines 158-429) -/

/-- handleAuctionInit (lines 158-193): creates/overwrites the auction record,
    snapshots consent and referer from the first bidder request, pre-populates
    ad units with empty bid maps; a missing auctionId creates nothing. -/
def handleAuctionInit (now : ℕ) (args : AuctionInitArgs) (c : Cache) : Cache :=
  if args.auctionId = "" then c
  else
    let brs := args.bidderRequests.getD []
    let ri := brs.head?.bind fun br => br.refererInfo
    let tl := ri.bind fun r => r.topmostLocation
    let pg := ri.bind fun r => r.page
    let record : AuctionRecord :=
      { timestamp := now
        timeout := args.timeout
        adUnits := (args.adUnits.getD []).foldl (fun acc au =>
          upsert au.code
            { code := au.code
              mediaTypes := mtKeys au.mediaTypes
              sizes := match au.sizes with
                | some s => s
                | none => extractSizes au.mediaTypes
              bids := []
              status := "pending" } acc) []
        bidderRequests := brs.map fun br => br.bidderCode
        bidsReceived := []
        noBids := []
        timeouts := []
        errors := []
        winningBids := []
        consent := extractConsent brs.head?
        referer := if strTruthy tl then tl else pg
        sent := false }
    upsert args.auctionId record c

/-- handleBidRequested (lines 198-218): for each declared bid whose ad unit
    exists, store a fresh pending BidRecord keyed by bidId. -/
def handleBidRequested (now : ℕ) (args : BidRequestedArgs) (c : Cache) : Cache :=
  match alookup args.auctionId c with
  | none => c
  | some record =>
    let record := (args.bids.getD []).foldl (fun r bid =>
      match alookup bid.adUnitCode r.adUnits with
      | none => r
      | some au =>
        let newBid : BidRecord :=
          { bidder := args.bidderCode
            bidId := bid.bidId
            status := BidStatus.pending
            requestTimestamp := some now
            isKargo := args.bidderCode = KARGO_BIDDER_CODE }
        let au2 := { au with bids := upsert bid.bidId newBid au.bids }
        { r with adUnits := upsert bid.adUnitCode au2 r.adUnits }) record
    upsert args.auctionId record c

/-- handleBidResponse (lines 223-263): resolve the bid id (originalRequestId
    preferred), merge onto any existing record, set status received, convert
    cpm to USD, and append to the flat bidsReceived sequence. -/
def handleBidResponse (env : Env) (args : BidResponseArgs) (c : Cache) : Cache :=
  match alookup args.auctionId c with
  | none => c
  | some record =>
    match alookup args.adUnitCode record.adUnits with
    | none => c
    | some au =>
      let bidId := if args.originalRequestId ≠ "" then args.originalRequestId else args.requestId
      let bidData := (alookup bidId au.bids).getD {}
      let actualBidder := if args.bidderCode ≠ "" then args.bidderCode else args.bidder
      let cpmUsd := convertToUsd env args.cpm args.currency
      let newBid : BidRecord :=
        { bidData with
          bidder := actualBidder
          bidId := args.requestId
          status := BidStatus.received
          cpm := args.cpm
          currency := args.currency
          cpmUsd := cpmUsd
          responseTime := args.timeToRespond
          mediaType := args.mediaType
          size := if intTruthy args.width && intTruthy args.height then
              some (toString (args.width.getD 0) ++ "x" ++ toString (args.height.getD 0))
            else none
          dealId := if strTruthy args.dealId then args.dealId else none
          advertiserDomains := (args.meta.bind fun m => m.advertiserDomains).map fun l => l.take 5
          isKargo := actualBidder = KARGO_BIDDER_CODE }
      let record :=
        { record with
          adUnits := upsert args.adUnitCode { au with bids := upsert bidId newBid au.bids } record.adUnits
          bidsReceived := record.bidsReceived ++
            [{ adUnitCode := args.adUnitCode, bidder := actualBidder, cpm := args.cpm, cpmUsd := cpmUsd }] }
      upsert args.auctionId record c

/-- handleNoBid (lines 268-280): set status no-bid when a BidRecord exists for
    the bid id, and unconditionally append to the flat noBids sequence. -/
def handleNoBid (args : NoBidArgs) (c : Cache) : Cache :=
  match alookup args.auctionId c with
  | none => c
  | some record =>
    let record :=
      match alookup args.adUnitCode record.adUnits with
      | some au =>
        match alookup args.bidId au.bids with
        | some b =>
          let au2 := { au with bids := upsert args.bidId ({ b with status := BidStatus.noBid }) au.bids }
          { record with adUnits := upsert args.adUnitCode au2 record.adUnits }
        | none => record
      | none => record
    upsert args.auctionId
      { record with noBids := record.noBids ++ [{ adUnitCode := args.adUnitCode, bidder := args.bidder }] } c

/-- One entry of handleBidTimeout (lines 289-301). -/
def bidTimeoutEntry (c : Cache) (bid : TimeoutEntry) : Cache :=
  match alookup bid.auctionId c with
  | none => c
  | some record =>
    let record :=
      match alookup bid.adUnitCode record.adUnits with
      | some au =>
        match alookup bid.bidId au.bids with
        | some b =>
          let au2 := { au with bids := upsert bid.bidId ({ b with status := BidStatus.timeout }) au.bids }
          { record with adUnits := upsert bid.adUnitCode au2 record.adUnits }
        | none => record
      | none => record
    upsert bid.auctionId
      { record with timeouts := record.timeouts ++ [{ adUnitCode := bid.adUnitCode, bidder := bid.bidder }] } c

/-- handleBidTimeout (lines 285-302): the args are an array of timed-out bid
    descriptors, processed independently in order. -/
def handleBidTimeout (entries : List TimeoutEntry) (c : Cache) : Cache :=
  entries.foldl bidTimeoutEntry c

/-- One entry of the handleBidderDone loop (lines 315-327). The returned flag
    records whether the JS body throws here: when no BidRecord is cached for
    the bid id but serverResponseTimeMs is defined, the source assigns to a
    property of undefined (a TypeError). -/
def bidderDoneStep (record : AuctionRecord) (bid : BidderDoneBid) : AuctionRecord × Bool :=
  match alookup bid.adUnitCode record.adUnits with
  | none => (record, false)
  | some au =>
    match alookup bid.bidId au.bids with
    | some cachedBid =>
      let cachedBid := if cachedBid.status = BidStatus.pending then
          { cachedBid with status := BidStatus.noBid } else cachedBid
      let cachedBid := match bid.serverResponseTimeMs with
        | some t => { cachedBid with serverResponseTime := some t }
        | none => cachedBid
      let au2 := { au with bids := upsert bid.bidId cachedBid au.bids }
      ({ record with adUnits := upsert bid.adUnitCode au2 record.adUnits }, false)
    | none => (record, bid.serverResponseTimeMs.isSome)

/-- The forEach over bidder-done bids: stops at the first throwing entry,
    keeping the mutations already applied (JS mutates the cache in place). -/
def bidderDoneLoop : AuctionRecord → List BidderDoneBid → AuctionRecord × Bool
  | record, [] => (record, false)
  | record, b :: rest =>
    let res := bidderDoneStep record b
    if res.2 then (res.1, true) else bidderDoneLoop res.1 rest

/-- handleBidderDone (lines 307-329): mark still-pending bids no-bid and attach
    server response times; the Bool reports whether the body threw. -/
def handleBidderDone (args : BidderDoneArgs) (c : Cache) : Cache × Bool :=
  match alookup args.auctionId c with
  | none => (c, false)
  | some record =>
    let res := bidderDoneLoop record (args.bids.getD [])
    (upsert args.auctionId res.1 c, res.2)

/-- The auction id a bidder-error event resolves: the event's own id, falling
    back to the nested bidder request's auction id. -/
def effectiveErrorAuctionId (args : BidderErrorArgs) : String :=
  if args.auctionId ≠ "" then args.auctionId
  else (args.bidderRequest.map fun br => br.auctionId).getD ""

/-- handleBidderError (lines 334-359): append a structured error entry and mark
    this bidder's still-pending bids as error; the auction id falls back to the
    nested bidder request's auction id. -/
def handleBidderError (now : ℕ) (args : BidderErrorArgs) (c : Cache) : Cache :=
  match alookup (effectiveErrorAuctionId args) c with
  | none => c
  | some record =>
    let msg := args.error.bind fun e => e.message
    let entry : ErrorEntry :=
      { bidder := args.bidderCode
        error := { message := if strTruthy msg then msg.getD "" else "Unknown error"
                   status := args.error.bind fun e => e.status }
        timestamp := now }
    let record :=
      { record with
        errors := record.errors ++ [entry]
        adUnits := mapVal (fun au =>
          { au with bids := mapVal (fun b =>
              if b.bidder = args.bidderCode ∧ b.status = BidStatus.pending then
                { b with status := BidStatus.error }
              else b) au.bids }) record.adUnits }
    upsert (effectiveErrorAuctionId args) record c

/-- handleAuctionEnd (lines 364-395): no-op when the record is missing or
    already sent; stamps end time and duration, refreshes winningBids from the
    host's highest-CPM query (a throwing query is caught and skipped), and arms
    the delivery timer. The Bool reports whether the timer was armed. -/
def handleAuctionEnd (env : Env) (now : ℕ) (args : AuctionEndArgs) (c : Cache) : Cache × Bool :=
  match alookup args.auctionId c with
  | none => (c, false)
  | some record =>
    if record.sent then (c, false)
    else
      let record := { record with
        endTimestamp := some now
        duration := some ((now : ℤ) - (record.timestamp : ℤ)) }
      let record :=
        match env.getHighestCpmBids with
        | none => record
        | some highestBids => highestBids.foldl (fun r hb =>
            if hb.auctionId = args.auctionId then
              let wb : WinningBid :=
                { bidder := hb.bidderCode
                  cpm := hb.cpm
                  cpmUsd := convertToUsd env hb.cpm hb.currency
                  bidId := hb.requestId }
              { r with winningBids := upsert hb.adUnitCode wb r.winningBids }
            else r) record
      (upsert args.auctionId record c, true)

/-! ### Rank and average computation (source lines 124-151) -/

/-- Insert into a descending-sorted list, keeping it descending. -/
def insertDesc (x : ℚ) : List ℚ → List ℚ
  | [] => [x]
  | y :: t => if x > y then x :: y :: t else y :: insertDesc x t

/-- The result of JS Array.prototype.sort with comparator (a, b) => b - a:
    the unique descending reordering of the list (insertion sort computes it;
    any two descending-sorted permutations of the same number list coincide). -/
def sortDesc : List ℚ → List ℚ
  | [] => []
  | x :: t => insertDesc x (sortDesc t)

/-- JS Array.prototype.indexOf on a list known to contain the value: index of
    the first occurrence. -/
def idxOf (c : ℚ) : List ℚ → ℕ
  | [] => 0
  | x :: t => if x = c then 0 else idxOf c t + 1

/-- The cpm values entering calculateRank: received bids with positive USD cpm,
    in bid-map order. -/
def receivedPositiveCpms (au : AdUnitRecord) : List ℚ :=
  (((au.bids.map Prod.snd).filter fun b =>
      b.status == BidStatus.received && optGt0 b.cpmUsd).map fun b => b.cpmUsd.getD 0)

/-- calculateRank (lines 124-134): 1-based position of the given cpm among the
    descending-sorted received positive USD cpms of the ad unit; null when the
    cpm is falsy, the ad unit or its bid map is absent, or the value does not
    occur. -/
def calculateRank (adUnit : Option AdUnitRecord) (cpm : Option ℚ) : Option ℕ :=
  match cpm, adUnit with
  | some c, some au =>
    if c = 0 then none
    else
      let cpms := sortDesc (receivedPositiveCpms au)
      if c ∈ cpms then some (idxOf c cpms + 1) else none
  | _, _ => none

/-- A second reading of the rank rule in the spec's words, for comparison: the
    pool is restricted to the own (Kargo) bidder's received positive-cpm bids
    in the slot ("among all of the own-bidder's received bids with a positive
    USD CPM in a slot"). -/
def calculateRankOwnBidder (adUnit : Option AdUnitRecord) (cpm : Option ℚ) : Option ℕ :=
  match cpm, adUnit with
  | some c, some au =>
    if c = 0 then none
    else
      let cpms := sortDesc ((((au.bids.map Prod.snd).filter fun b =>
        b.isKargo && (b.status == BidStatus.received && optGt0 b.cpmUsd)).map fun b => b.cpmUsd.getD 0))
      if c ∈ cpms then some (idxOf c cpms + 1) else none
  | _, _ => none

/-- average (lines 147-151): arithmetic mean of the non-null entries rounded to
    2 decimals, null when nothing remains. -/
def average (arr : List (Option ℚ)) : Option ℚ :=
  let filtered := arr.filterMap id
  if filtered.length = 0 then none
  else some (toFixed2 ((filtered.foldl (fun a b => a + b) 0) / (filtered.length : ℚ)))

/-- countTotalBids (lines 139-142). -/
def countTotalBids (record : AuctionRecord) : ℕ :=
  (record.adUnits.map Prod.snd).foldl (fun total au => total + au.bids.length) 0

/-! ### Payload formatters (source lines 450-577) -/

structure KargoBidMetric where
  adUnitCode : String
  status : BidStatus
  cpm : Option ℚ
  responseTime : Option ℚ
  won : Bool
  winningBidder : Option String
  winningCpm : Option ℚ
  marginToWin : Option ℚ
  rank : Option ℕ
deriving DecidableEq, Repr

structure KargoMetrics where
  bidCount : ℕ
  bids : List KargoBidMetric
  winCount : ℕ
  avgResponseTime : Option ℚ
  avgCpm : Option ℚ
deriving DecidableEq, Repr

/-- extractKargoMetrics (lines 450-482): collect one metric row per Kargo bid
    across ad units with competitive fields against the slot's winning bid. -/
def extractKargoMetrics (record : AuctionRecord) : KargoMetrics :=
  let kargoBids := record.adUnits.foldr (fun p acc =>
    ((p.2.bids.map Prod.snd).filterMap fun b =>
      if b.isKargo then
        let winningBid := alookup p.1 record.winningBids
        let wCpmUsd := winningBid.bind fun w => w.cpmUsd
        some
          { adUnitCode := p.1
            status := b.status
            cpm := b.cpmUsd
            responseTime := b.responseTime
            won := b.won
            winningBidder := if strTruthy (winningBid.map fun w => w.bidder) then
                winningBid.map fun w => w.bidder
              else none
            winningCpm := orQNull wCpmUsd
            marginToWin := if qTruthy wCpmUsd && qTruthy b.cpmUsd then
                some (toFixed3 ((wCpmUsd.getD 0) - (b.cpmUsd.getD 0)))
              else none
            rank := calculateRank (some p.2) b.cpmUsd }
      else none) ++ acc) []
  { bidCount := kargoBids.length
    bids := kargoBids
    winCount := (kargoBids.filter fun b => b.won).length
    avgResponseTime := average (kargoBids.map fun b => b.responseTime)
    avgCpm := average ((kargoBids.filter fun b => qTruthy b.cpm).map fun b => b.cpm) }

structure AdUnitBidderRow where
  bidder : String
  status : BidStatus
  cpm : Option ℚ
  responseTime : Option ℚ
  isKargo : Bool
  won : Bool
deriving DecidableEq, Repr

structure AdUnitSummary where
  code : String
  mediaTypes : List String
  bidders : List AdUnitBidderRow
  winningBidder : Option String
  winningCpm : Option ℚ
deriving DecidableEq, Repr

structure AuctionSummary where
  bidderCount : ℕ
  totalBidsRequested : ℕ
  totalBidsReceived : ℕ
  totalNoBids : ℕ
  totalTimeouts : ℕ
  totalErrors : ℕ
deriving DecidableEq, Repr

structure AuctionPayload where
  version : String
  timestamp : ℕ
  prebidVersion : String
  auctionId : String
  auctionTimeout : Option ℚ
  auctionDuration : Option ℤ
  pageUrl : Option String
  consent : Option Consent
  kargo : KargoMetrics
  auction : AuctionSummary
  adUnits : List AdUnitSummary
  errors : List ErrorEntry
deriving DecidableEq, Repr

/-- formatAuctionPayload (lines 487-539). -/
def formatAuctionPayload (now : ℕ) (auctionId : String) (record : AuctionRecord) : AuctionPayload :=
  { version := ANALYTICS_VERSION
    timestamp := now
    prebidVersion := "$prebid.version$"
    auctionId := auctionId
    auctionTimeout := record.timeout
    auctionDuration := record.duration
    pageUrl := record.referer
    consent := record.consent
    kargo := extractKargoMetrics record
    auction :=
      { bidderCount := record.bidderRequests.length
        totalBidsRequested := countTotalBids record
        totalBidsReceived := record.bidsReceived.length
        totalNoBids := record.noBids.length
        totalTimeouts := record.timeouts.length
        totalErrors := record.errors.length }
    adUnits := record.adUnits.map fun p =>
      { code := p.1
        mediaTypes := p.2.mediaTypes
        bidders := (p.2.bids.map Prod.snd).map fun bid =>
          { bidder := bid.bidder
            status := bid.status
            cpm := if bid.status = BidStatus.received then bid.cpmUsd else none
            responseTime := if qTruthy bid.responseTime then bid.responseTime else none
            isKargo := bid.isKargo
            won := bid.won }
        winningBidder := if strTruthy ((alookup p.1 record.winningBids).map fun w => w.bidder) then
            (alookup p.1 record.winningBids).map fun w => w.bidder
          else none
        winningCpm := orQNull ((alookup p.1 record.winningBids).bind fun w => w.cpmUsd) }
    errors := record.errors }

structure WinWinner where
  bidder : String
  cpm : Option ℚ
  cpmUsd : Option ℚ
deriving DecidableEq, Repr

structure WinKargo where
  participated : Bool
  cpm : Option ℚ
  margin : Option ℚ
  rank : Option ℕ
deriving DecidableEq, Repr

structure WinPayload where
  version : String
  timestamp : ℕ
  auctionId : String
  adUnitCode : String
  winner : WinWinner
  kargo : WinKargo
deriving DecidableEq, Repr

/-- formatWinPayload (lines 544-577): null when the slot has no winning bid;
    the kargo block reports participation via the first Kargo bid of the slot's
    bid map. -/
def formatWinPayload (now : ℕ) (auctionId adUnitCode : String) (record : AuctionRecord) :
    Option WinPayload :=
  match alookup adUnitCode record.winningBids with
  | none => none
  | some winningBid =>
    let adUnit := alookup adUnitCode record.adUnits
    let kargoBid := adUnit.bind fun au => (au.bids.map Prod.snd).find? fun b => b.isKargo
    some
      { version := ANALYTICS_VERSION
        timestamp := now
        auctionId := auctionId
        adUnitCode := adUnitCode
        winner := { bidder := winningBid.bidder, cpm := winningBid.cpm, cpmUsd := winningBid.cpmUsd }
        kargo :=
          match kargoBid with
          | some kb =>
            { participated := true
              cpm := kb.cpmUsd
              margin := if qTruthy winningBid.cpmUsd && qTruthy kb.cpmUsd then
                  some (toFixed3 ((winningBid.cpmUsd.getD 0) - (kb.cpmUsd.getD 0)))
                else none
              rank := calculateRank adUnit kb.cpmUsd }
          | none => { participated := false, cpm := none, margin := none, rank := none } }

/-! ### Delivery actions, adapter state and the event-loop step relation -/

/-- An outbound HTTP POST attempt (one invocation of the ajax transport). -/
inductive Action
  | postAuction (auctionId : String) (payload : AuctionPayload)
  | postWin (auctionId : String) (payload : WinPayload)
deriving DecidableEq, Repr

/-- Number of auction-endpoint POST attempts for a given auction id. -/
def countAuctionPosts (id : String) (as : List Action) : ℕ :=
  (as.filter fun a =>
    match a with
    | Action.postAuction i _ => i = id
    | Action.postWin _ _ => false).length

/-- Adapter state: the cache plus config, the session sampling decision, and
    the book-keeping of armed debounce timers, in-flight auction POSTs (whose
    completion callback has not yet run) and scheduled evictions. -/
structure AdapterState where
  auctions : Cache
  config : Config
  sampled : Bool
  pendingTimers : List String
  inFlight : List String
  pendingEvictions : List String
deriving DecidableEq, Repr

/-- State right after enableAnalytics on an empty cache. -/
def initState (opts : AnalyticsOptions) (rand : ℚ) : AdapterState :=
  let cs := enableAnalytics opts rand
  { auctions := []
    config := cs.1
    sampled := cs.2
    pendingTimers := []
    inFlight := []
    pendingEvictions := [] }

/-- sendWinAnalytics (lines 627-650): no-op when the record is gone or the
    session is unsampled or the payload is null; otherwise one win POST. -/
def sendWinAnalytics (sampled : Bool) (now : ℕ) (auctionId adUnitCode : String) (c : Cache) :
    List Action :=
  match alookup auctionId c with
  | none => []
  | some record =>
    if !sampled then []
    else
      match formatWinPayload now auctionId adUnitCode record with
      | none => []
      | some payload => [Action.postWin auctionId payload]

/-- handleBidWon (lines 400-429): overwrite the slot's winning bid with the
    explicit winner, mark matching bids won (by bid id or bidder code), and,
    when win events are enabled and the auction is unsent, immediately send a
    win payload. -/
def handleBidWon (env : Env) (cfg : Config) (sampled : Bool) (now : ℕ) (args : BidWonArgs)
    (c : Cache) : Cache × List Action :=
  match alookup args.auctionId c with
  | none => (c, [])
  | some record =>
    let wb : WinningBid :=
      { bidder := args.bidderCode
        cpm := args.cpm
        cpmUsd := convertToUsd env args.cpm args.currency
        bidId := args.requestId
        won := true }
    let record := { record with winningBids := upsert args.adUnitCode wb record.winningBids }
    let record :=
      match alookup args.adUnitCode record.adUnits with
      | some au =>
        let markWon := fun (b : BidRecord) =>
          if b.bidId = args.requestId ∨ b.bidder = args.bidderCode then { b with won := true }
          else b
        let au2 := { au with bids := mapVal markWon au.bids }
        { record with adUnits := upsert args.adUnitCode au2 record.adUnits }
      | none => record
    let c2 := upsert args.auctionId record c
    if cfg.sendWinEvents && !record.sent then
      (c2, sendWinAnalytics sampled now args.auctionId args.adUnitCode c2)
    else (c2, [])

/-- sendAuctionAnalytics (lines 584-622), run when a debounce timer fires:
    no-op when the record is gone or already marked sent; in an unsampled
    session, mark sent and schedule eviction without any POST; otherwise format
    and POST the auction payload. The sent mark for the POST path is applied
    only by the ajax completion callback (success or error), modelled as the
    separate ajaxComplete step below. -/
def sendAuctionAnalytics (now : ℕ) (auctionId : String) (s : AdapterState) :
    AdapterState × List Action :=
  match alookup auctionId s.auctions with
  | none => (s, [])
  | some record =>
    if record.sent then (s, [])
    else if !s.sampled then
      ({ s with
          auctions := upsert auctionId ({ record with sent := true }) s.auctions
          pendingEvictions := s.pendingEvictions ++ [auctionId] }, [])
    else
      ({ s with inFlight := s.inFlight ++ [auctionId] },
       [Action.postAuction auctionId (formatAuctionPayload now auctionId record)])

/-! ### Dispatch (track, source lines 433-443 and 704-713) -/

inductive PbEvent
  | auctionInit (args : AuctionInitArgs)
  | bidRequested (args : BidRequestedArgs)
  | bidResponse (args : BidResponseArgs)
  | noBid (args : NoBidArgs)
  | bidTimeout (entries : List TimeoutEntry)
  | bidderDone (args : BidderDoneArgs)
  | bidderError (args : BidderErrorArgs)
  | auctionEnd (args : AuctionEndArgs)
  | bidWon (args : BidWonArgs)
deriving DecidableEq, Repr

/-- The outcome of running one event handler: the new cache, emitted win
    POSTs, a possibly armed delivery timer, and whether the handler body threw
    (the exception reaching the dispatch boundary). -/
structure HandlerResult where
  cache : Cache
  actions : List Action := []
  armTimer : Option String := none
  threw : Bool := false
deriving Repr

/-- Dispatch of one event to its handler (the eventHandlers map). -/
def dispatchEvent (env : Env) (cfg : Config) (sampled : Bool) (now : ℕ) (c : Cache) :
    PbEvent → HandlerResult
  | PbEvent.auctionInit args => { cache := handleAuctionInit now args c }
  | PbEvent.bidRequested args => { cache := handleBidRequested now args c }
  | PbEvent.bidResponse args => { cache := handleBidResponse env args c }
  | PbEvent.noBid args => { cache := handleNoBid args c }
  | PbEvent.bidTimeout entries => { cache := handleBidTimeout entries c }
  | PbEvent.bidderDone args =>
    let res := handleBidderDone args c
    { cache := res.1, threw := res.2 }
  | PbEvent.bidderError args => { cache := handleBidderError now args c }
  | PbEvent.auctionEnd args =>
    let res := handleAuctionEnd env now args c
    { cache := res.1, armTimer := if res.2 then some args.auctionId else none }
  | PbEvent.bidWon args =>
    let res := handleBidWon env cfg sampled now args c
    { cache := res.1, actions := res.2 }

/-- track (lines 704-713): run the handler inside try/catch; a throwing
    handler is logged and ignored, keeping whatever mutations it already made,
    and the dispatch loop continues with later events. -/
def trackStep (env : Env) (now : ℕ) (s : AdapterState) (e : PbEvent) :
    AdapterState × List Action :=
  ({ s with
      auctions := (dispatchEvent env s.config s.sampled now s.auctions e).cache
      pendingTimers := s.pendingTimers ++
        (match (dispatchEvent env s.config s.sampled now s.auctions e).armTimer with
         | some id => [id]
         | none => []) },
   (dispatchEvent env s.config s.sampled now s.auctions e).actions)

/-! ### The asynchronous schedule: timers, ajax completions, evictions -/

/-- One step of the single-threaded event loop: an incoming lifecycle event, a
    debounce timer firing, the completion callback of an in-flight auction POST
    (success and transport error behave identically), or a scheduled eviction
    (cleanupAuction's delayed delete). -/
inductive Step
  | ev (now : ℕ) (e : PbEvent)
  | timerFire (now : ℕ) (auctionId : String)
  | ajaxComplete (auctionId : String)
  | evict (auctionId : String)
deriving DecidableEq, Repr

/-- Interpret one step. A timer fire consumes one armed timer; an ajax
    completion consumes one in-flight POST, marks the record sent and schedules
    eviction; an eviction consumes its schedule entry and deletes the record.
    Steps with no matching pending entry are no-ops (they cannot occur). -/
def runStep (env : Env) (s : AdapterState) : Step → AdapterState × List Action
  | Step.ev now e => trackStep env now s e
  | Step.timerFire now id =>
    if id ∈ s.pendingTimers then
      sendAuctionAnalytics now id { s with pendingTimers := s.pendingTimers.erase id }
    else (s, [])
  | Step.ajaxComplete id =>
    if id ∈ s.inFlight then
      let s2 := { s with inFlight := s.inFlight.erase id }
      match alookup id s2.auctions with
      | some record =>
        ({ s2 with
            auctions := upsert id ({ record with sent := true }) s2.auctions
            pendingEvictions := s2.pendingEvictions ++ [id] }, [])
      | none => ({ s2 with pendingEvictions := s2.pendingEvictions ++ [id] }, [])
    else (s, [])
  | Step.evict id =>
    if id ∈ s.pendingEvictions then
      ({ s with
          pendingEvictions := s.pendingEvictions.erase id
          auctions := removeKey id s.auctions }, [])
    else (s, [])

/-- Run a schedule of steps, collecting every POST attempt in order. -/
def runTrace (env : Env) : AdapterState → List Step → AdapterState × List Action
  | s, [] => (s, [])
  | s, st :: rest =>
    let r1 := runStep env s st
    let r2 := runTrace env r1.1 rest
    (r2.1, r1.2 ++ r2.2)

/-! ### Derived observations used by the theorems -/

/-- Status of one cached bid, if every level of the cache resolves. -/
def bidStatus (c : Cache) (auctionId adUnitCode bidId : String) : Option BidStatus :=
  (alookup auctionId c).bind fun record =>
    (alookup adUnitCode record.adUnits).bind fun au =>
      (alookup bidId au.bids).map fun b => b.status

/-- The first auction-endpoint payload among a list of POST attempts. -/
def firstAuctionPayload : List Action → Option AuctionPayload
  | [] => none
  | Action.postAuction _ p :: _ => some p
  | Action.postWin _ _ :: rest => firstAuctionPayload rest

/-- Relation on optional GDPR consent blobs: equal apart from the raw consent
    string value, whose presence (truthiness) agrees. -/
def gdprEquiv : Option GdprConsentArg → Option GdprConsentArg → Prop
  | none, none => True
  | some g1, some g2 =>
    g1.gdprApplies = g2.gdprApplies ∧ strTruthy g1.consentString = strTruthy g2.consentString
  | _, _ => False

/-- Relation on optional GPP consent blobs: equal apart from the raw GPP
    string value, whose presence (truthiness) agrees. -/
def gppEquiv : Option GppConsentArg → Option GppConsentArg → Prop
  | none, none => True
  | some g1, some g2 =>
    g1.applicableSections = g2.applicableSections ∧ strTruthy g1.gppString = strTruthy g2.gppString
  | _, _ => False

/-- Bidder requests that differ only in raw GDPR/GPP consent string values
    (with presence preserved). -/
def bidderRequestEquiv (b1 b2 : BidderRequest) : Prop :=
  b1.bidderCode = b2.bidderCode ∧ b1.refererInfo = b2.refererInfo ∧
    b1.uspConsent = b2.uspConsent ∧ b1.coppa = b2.coppa ∧
    gdprEquiv b1.gdprConsent b2.gdprConsent ∧ gppEquiv b1.gppConsent b2.gppConsent

/-- Auction-init events that differ only in raw GDPR/GPP consent strings. -/
def initArgsEquiv (a1 a2 : AuctionInitArgs) : Prop :=
  a1.auctionId = a2.auctionId ∧ a1.timeout = a2.timeout ∧ a1.adUnits = a2.adUnits ∧
    (match a1.bidderRequests, a2.bidderRequests with
     | none, none => True
     | some l1, some l2 => List.Forall₂ bidderRequestEquiv l1 l2
     | _, _ => False)

/-- Which auction id(s) a mutating event resolves against the cache; true when
    every resolution misses (auction-init, which creates records, is excluded). -/
def eventCacheMiss (c : Cache) : PbEvent → Bool
  | PbEvent.auctionInit _ => false
  | PbEvent.bidRequested a => (alookup a.auctionId c).isNone
  | PbEvent.bidResponse a => (alookup a.auctionId c).isNone
  | PbEvent.noBid a => (alookup a.auctionId c).isNone
  | PbEvent.bidTimeout es => es.all fun e => (alookup e.auctionId c).isNone
  | PbEvent.bidderDone a => (alookup a.auctionId c).isNone
  | PbEvent.bidderError a => (alookup (effectiveErrorAuctionId a) c).isNone
  | PbEvent.auctionEnd a => (alookup a.auctionId c).isNone
  | PbEvent.bidWon a => (alookup a.auctionId c).isNone

/-! ### Concrete fixtures (mirroring the repository's test data) -/

def env0 : Env := { convertCurrency := none, getHighestCpmBids := some [] }

/-- An environment whose currency-conversion function throws on every call. -/
def envFail : Env := { convertCurrency := some fun _ _ => none, getHighestCpmBids := some [] }

def brKargo : BidderRequest :=
  { bidderCode := "kargo"
    refererInfo := some { topmostLocation := some "https://example.com/page"
                          page := some "https://example.com/page" }
    gdprConsent := some { gdprApplies := true, consentString := some "mock-consent-string" }
    uspConsent := some "1YNN" }

def brAppnexus : BidderRequest := { bidderCode := "appnexus" }

def initA : AuctionInitArgs :=
  { auctionId := "a1"
    timeout := some 1000
    adUnits := some [{ code := "slot1", mediaTypes := some { banner := some { sizes := some [] } } }]
    bidderRequests := some [brKargo, brAppnexus] }

/-- initA with a different raw USP consent string. -/
def initUspVariant : AuctionInitArgs :=
  { initA with bidderRequests := some [{ brKargo with uspConsent := some "1YYY" }, brAppnexus] }

/-- initA with a different raw GDPR consent string (same presence). -/
def brKargoGdprVariant : BidderRequest :=
  { brKargo with gdprConsent := some { gdprApplies := true, consentString := some "other-string" } }

def initGdprVariant : AuctionInitArgs :=
  { initA with bidderRequests := some [brKargoGdprVariant, brAppnexus] }

def reqA : BidRequestedArgs :=
  { auctionId := "a1", bidderCode := "kargo", bids := some [{ bidId := "bid-123", adUnitCode := "slot1" }] }

def respA : BidResponseArgs :=
  { auctionId := "a1", adUnitCode := "slot1", bidder := "kargo", bidderCode := "kargo"
    requestId := "bid-123", cpm := some (5/2), currency := some "USD", timeToRespond := some 192
    mediaType := some "banner", width := some 300, height := some 250 }

def wonA : BidWonArgs :=
  { auctionId := "a1", adUnitCode := "slot1", bidderCode := "kargo"
    cpm := some (5/2), currency := some "USD", requestId := "bid-123" }

/-- State after enableAnalytics with defaults (sampling 100). -/
def s100 : AdapterState := initState {} (1/2)

/-- State after enableAnalytics with sampling configured to 0. -/
def sZero : AdapterState := initState { sampling := some 0 } (1/2)

/-- Cache after init, bid-requested and bid-response for the Kargo bid. -/
def cacheResp : Cache :=
  handleBidResponse env0 respA (handleBidRequested 1 reqA (handleAuctionInit 0 initA []))

/-- Adapter state holding cacheResp. -/
def sResp : AdapterState := { s100 with auctions := cacheResp }

/-- The schedule of C1's re-entrancy scenario: auction-end fires twice during
    the debounce window, then both armed timers fire before any ajax
    completion callback has run. -/
def doubleEndTrace : List Step :=
  [Step.ev 0 (PbEvent.auctionInit initA),
   Step.ev 10 (PbEvent.auctionEnd { auctionId := "a1" }),
   Step.ev 20 (PbEvent.auctionEnd { auctionId := "a1" }),
   Step.timerFire 510 "a1",
   Step.timerFire 520 "a1"]

/-- One auction: init, end, then the debounce timer fires. -/
def traceFor (a : AuctionInitArgs) : List Step :=
  [Step.ev 0 (PbEvent.auctionInit a),
   Step.ev 10 (PbEvent.auctionEnd { auctionId := "a1" }),
   Step.timerFire 510 "a1"]

/-- An ad unit holding a received Kargo bid at 1 USD and a received competitor
    bid at 2 USD. -/
def auEx : AdUnitRecord :=
  { code := "slot1", mediaTypes := ["banner"], sizes := [], status := "pending"
    bids := [("b1", { bidder := "kargo", bidId := "b1", status := BidStatus.received
                      cpmUsd := some 1, isKargo := true }),
             ("b2", { bidder := "appnexus", bidId := "b2", status := BidStatus.received
                      cpmUsd := some 2 })] }

/-- A bidder-done entry reporting a server response time for a bid id that has
    no cached BidRecord. -/
def doneBadBid : BidderDoneBid := { adUnitCode := "slot1", bidId := "nope", serverResponseTimeMs := some 50 }

def doneBad : BidderDoneArgs := { auctionId := "a1", bids := some [doneBadBid] }

/-- Cache after only the auction-init event (no bid ever requested). -/
def cacheInit : Cache := handleAuctionInit 0 initA []

/-- The tail of a one-auction schedule: auction-end, then the timer fires. -/
def restEndFire : List Step :=
  [Step.ev 10 (PbEvent.auctionEnd { auctionId := "a1" }), Step.timerFire 510 "a1"]

/-- A cache record with the sent mark already applied. -/
def recSent : AuctionRecord :=
  { timestamp := 0, timeout := some 1000, adUnits := [], bidderRequests := []
    bidsReceived := [], noBids := [], timeouts := [], errors := [], winningBids := []
    consent := none, referer := none, sent := true }

def sSent : AdapterState := { s100 with auctions := [("a1", recSent)] }

/-! ## Association-list lemmas -/

theorem alookup_upsert_self {α : Type} (k : String) (v : α) (l : List (String × α)) :
    alookup k (upsert k v l) = some v := by
  induction l with
  | nil => simp [upsert, alookup]
  | cons hd t ih =>
    obtain ⟨k', v'⟩ := hd
    by_cases hk : k' = k
    · simp [upsert, hk, alookup]
    · simp [upsert, hk, alookup, ih]

theorem alookup_upsert_ne {α : Type} {k k2 : String} (v : α) (l : List (String × α))
    (h : k2 ≠ k) : alookup k (upsert k2 v l) = alookup k l := by
  induction l with
  | nil => simp [upsert, alookup, h]
  | cons hd t ih =>
    obtain ⟨k', v'⟩ := hd
    by_cases hk : k' = k2
    · subst hk
      simp [upsert, alookup, h]
    · simp [upsert, hk, alookup, ih]

theorem alookup_mapVal {α β : Type} (f : α → β) (k : String) (l : List (String × α)) :
    alookup k (mapVal f l) = (alookup k l).map f := by
  induction l with
  | nil => simp [mapVal, alookup]
  | cons hd t ih =>
    obtain ⟨k', v'⟩ := hd
    by_cases hk : k' = k
    · simp [mapVal, alookup, hk]
    · simpa [mapVal, alookup, hk] using ih

theorem upsert_length_of_none {α : Type} {k : String} (v : α) {l : List (String × α)}
    (h : alookup k l = none) : (upsert k v l).length = l.length + 1 := by
  induction l with
  | nil => simp [upsert]
  | cons hd t ih =>
    obtain ⟨k', v'⟩ := hd
    by_cases hk : k' = k
    · simp [alookup, hk] at h
    · simp [alookup, hk] at h
      simp [upsert, hk, ih h]

/-! ## Sorting lemmas for the rank computation -/

theorem insertDesc_perm (x : ℚ) (l : List ℚ) : List.Perm (insertDesc x l) (x :: l) := by
  induction l with
  | nil => simp [insertDesc]
  | cons y t ih =>
    by_cases h : x > y
    · simp [insertDesc, h]
    · simp only [insertDesc, if_neg h]
      exact (ih.cons y).trans (List.Perm.swap x y t)

theorem sortDesc_perm (l : List ℚ) : List.Perm (sortDesc l) l := by
  induction l with
  | nil => simp [sortDesc]
  | cons x t ih => exact (insertDesc_perm x (sortDesc t)).trans (ih.cons x)

theorem insertDesc_sorted (x : ℚ) {l : List ℚ} (h : List.Pairwise (fun a b => a ≥ b) l) :
    List.Pairwise (fun a b => a ≥ b) (insertDesc x l) := by
  induction l with
  | nil => simp [insertDesc]
  | cons y t ih =>
    rcases h with _ | ⟨hy, ht⟩
    by_cases hxy : x > y
    · simp only [insertDesc, if_pos hxy]
      refine List.Pairwise.cons ?_ (List.Pairwise.cons hy ht)
      intro z hz
      rcases List.mem_cons.mp hz with hz | hz
      · exact le_of_lt (hz ▸ hxy)
      · exact le_trans (hy z hz) (le_of_lt hxy)
    · simp only [insertDesc, if_neg hxy]
      refine List.Pairwise.cons ?_ (ih ht)
      intro z hz
      rcases List.mem_cons.mp ((insertDesc_perm x t).mem_iff.mp hz) with hz | hz
      · exact hz ▸ (not_lt.mp hxy)
      · exact hy z hz

theorem sortDesc_sorted (l : List ℚ) : List.Pairwise (fun a b => a ≥ b) (sortDesc l) := by
  induction l with
  | nil => simp [sortDesc]
  | cons x t ih => exact insertDesc_sorted x ih

theorem idxOf_sorted_eq_countP {s : List ℚ} {c : ℚ}
    (hs : List.Pairwise (fun a b => a ≥ b) s) (hc : c ∈ s) :
    idxOf c s = s.countP (fun x => decide (c < x)) := by
  induction s with
  | nil => cases hc
  | cons a t ih =>
    rcases hs with _ | ⟨ha, ht⟩
    by_cases hac : a = c
    · subst hac
      have hz : t.countP (fun x => decide (a < x)) = 0 := by
        rw [List.countP_eq_zero]
        intro z hz
        simpa using not_lt.mpr (ha z hz)
      simp [idxOf, List.countP_cons, hz]
    · have hct : c ∈ t := by
        rcases List.mem_cons.mp hc with h | h
        · exact absurd h.symm hac
        · exact h
      have hlt : c < a := lt_of_le_of_ne (ha c hct) (fun h => hac h.symm)
      simp [idxOf, hac, List.countP_cons, hlt, ih ht hct]

theorem mem_receivedPositiveCpms_pos {au : AdUnitRecord} {c : ℚ}
    (h : c ∈ receivedPositiveCpms au) : 0 < c := by
  simp only [receivedPositiveCpms, List.mem_map, List.mem_filter] at h
  obtain ⟨b, ⟨_, hpred⟩, hval⟩ := h
  rcases hb : b.cpmUsd with _ | q
  · rw [hb] at hpred
    simp [optGt0] at hpred
  · rw [hb] at hpred hval
    simp only [Bool.and_eq_true, optGt0, decide_eq_true_eq] at hpred
    simpa [← hval] using hpred.2

/-! ## Small structural lemmas -/

theorem find?_isKargo_map (f : BidRecord → BidRecord) (hf : ∀ b, (f b).isKargo = b.isKargo)
    (l : List BidRecord) :
    ((l.map f).find? fun b => b.isKargo).isSome = l.any fun b => b.isKargo := by
  induction l with
  | nil => simp
  | cons hd t ih =>
    rcases hk : hd.isKargo with _ | _
    · rw [List.map_cons, List.find?_cons_of_neg, List.any_cons, hk]
      · simpa using ih
      · simp [hf, hk]
    · rw [List.map_cons, List.find?_cons_of_pos, List.any_cons, hk]
      · simp
      · simp [hf, hk]

theorem mapVal_snd {α β : Type} (f : α → β) (l : List (String × α)) :
    (mapVal f l).map Prod.snd = (l.map Prod.snd).map f := by
  induction l with
  | nil => rfl
  | cons hd t ih => simp [mapVal, ih]

/-! ## C2: sampling = 0 -/

unseal Rat.mul Rat.inv Rat.add Rat.sub in
/-- C2: the claim says that with sampling configured to 0 no POST is ever
    delivered. The code instead treats 0 as invalid, resets it to 100, samples
    the session and delivers the auction POST: the very scenario of the
    repository's own test (sampling 0, one auction, timer elapses) produces one
    auction-endpoint delivery. -/
theorem sampling_zero_clamped_to_100_still_posts :
    sZero.sampled = true ∧ sZero.config.sampling = 100 ∧
      countAuctionPosts "a1" (runTrace env0 sZero (traceFor initA)).2 = 1 := by
  decide

/-! ## C5: cpmUsd nullability -/

unseal Rat.mul Rat.inv Rat.add Rat.sub in
/-- C5 (counterexample): for a positive cpm in EUR with the conversion function
    absent (env0) or throwing (envFail), the claim demands cpmUsd = null, but
    convertToUsd falls back to the original value. -/
theorem conversion_unavailable_falls_back_to_original :
    convertToUsd env0 (some 2) (some "EUR") = some 2 ∧
      convertToUsd envFail (some 2) (some "EUR") = some 2 := by
  decide

/-- C5 (amended): the stored cpmUsd is null exactly when the cpm is absent or
    non-positive; an impossible currency conversion does not produce null but
    falls back to the original value; every non-null result is a fixed-point
    value with 3 fractional digits (an integer multiple of 1/1000). -/
theorem convertToUsd_null_iff_nonpositive (env : Env) (cpm : Option ℚ) (currency : Option String) :
    (convertToUsd env cpm currency = none ↔ ∀ c, cpm = some c → c ≤ 0) ∧
      ∀ q, convertToUsd env cpm currency = some q → ∃ n : ℤ, q = (n : ℚ) / 1000 := by
  rcases cpm with _ | c
  · constructor
    · simp [convertToUsd]
    · intro q hq
      simp [convertToUsd] at hq
  · by_cases hc : c ≤ 0
    · constructor
      · simp only [convertToUsd, if_pos hc]
        constructor
        · intro _ c2 hc2
          cases hc2
          exact hc
        · intro _
          trivial

      · intro q hq
        simp only [convertToUsd, if_pos hc] at hq
        cases hq
    · constructor
      · simp only [convertToUsd, if_neg hc]
        constructor
        · intro h
          exfalso
          revert h
          split
          · intro h
            cases h
          · split
            · split
              · intro h
                cases h
              · intro h
                cases h
            · intro h
              cases h
        · intro h
          exact absurd (h c rfl) hc
      · intro q hq
        simp only [convertToUsd, if_neg hc] at hq
        revert hq
        split
        · intro hq
          cases hq
          exact ⟨jsRound (c * 1000), rfl⟩
        · split
          · split
            · intro hq
              cases hq
              exact ⟨jsRound (_ * 1000), rfl⟩
            · intro hq
              cases hq
              exact ⟨jsRound (c * 1000), rfl⟩
          · intro hq
            cases hq
            exact ⟨jsRound (c * 1000), rfl⟩

unseal Rat.mul Rat.inv Rat.add Rat.sub in
/-- C5 (witness): the amended theorem applied to a positive EUR cpm with no
    conversion function available. -/
theorem convertToUsd_null_iff_nonpositive_w :
    (convertToUsd env0 (some 2) (some "EUR") = none ↔ ∀ c, (some (2 : ℚ)) = some c → c ≤ 0) ∧
      ∃ n : ℤ, (2 : ℚ) = (n : ℚ) / 1000 := by
  refine ⟨(convertToUsd_null_iff_nonpositive env0 (some 2) (some "EUR")).1, ?_⟩
  exact (convertToUsd_null_iff_nonpositive env0 (some 2) (some "EUR")).2 2 (by decide)

/-! ## C6: rank computation -/

unseal Rat.mul Rat.inv Rat.add Rat.sub in
/-- C6 (counterexample): in a slot holding a received Kargo bid at 1 USD and a
    received competitor bid at 2 USD, the code ranks the Kargo cpm among ALL
    received positive bids (rank 2), while the claim's pool restricted to the
    own bidder's bids would give rank 1. -/
theorem rank_pools_all_bidders_not_own :
    calculateRank (some auEx) (some 1) = some 2 ∧
      calculateRankOwnBidder (some auEx) (some 1) = some 1 := by
  decide

/-- C6 (amended): the rank is computed among all bidders' received bids with a
    positive USD cpm in the slot: when the queried cpm occurs in that pool the
    rank is 1 plus the number of pool entries strictly greater than it (the
    1-based position of its first occurrence in descending order), and it is
    null when the queried value is absent from the pool, the cpm is missing or
    zero, or the ad unit is absent. -/
theorem calculateRank_spec (au : AdUnitRecord) (c : ℚ) :
    (c ∈ receivedPositiveCpms au →
        calculateRank (some au) (some c)
          = some ((receivedPositiveCpms au).countP (fun x => decide (c < x)) + 1)) ∧
      (c ∉ receivedPositiveCpms au → calculateRank (some au) (some c) = none) ∧
      calculateRank (some au) none = none ∧ calculateRank none (some c) = none := by
  refine ⟨?_, ?_, rfl, rfl⟩
  · intro hmem
    have hpos := mem_receivedPositiveCpms_pos hmem
    have hne : ¬(c = 0) := ne_of_gt hpos
    have hmem2 : c ∈ sortDesc (receivedPositiveCpms au) :=
      (sortDesc_perm (receivedPositiveCpms au)).mem_iff.mpr hmem
    simp only [calculateRank, if_neg hne, if_pos hmem2]
    rw [idxOf_sorted_eq_countP (sortDesc_sorted (receivedPositiveCpms au)) hmem2]
    rw [List.Perm.countP_eq _ (sortDesc_perm (receivedPositiveCpms au))]
  · intro hmem
    by_cases hz : c = 0
    · simp only [calculateRank, if_pos hz]
    · have hmem2 : ¬(c ∈ sortDesc (receivedPositiveCpms au)) := fun hin =>
        hmem ((sortDesc_perm (receivedPositiveCpms au)).mem_iff.mp hin)
      simp only [calculateRank, if_neg hz, if_neg hmem2]

unseal Rat.mul Rat.inv Rat.add Rat.sub in
/-- C6 (witness): the amended rank rule evaluated on the two-bidder slot. -/
theorem calculateRank_spec_w :
    calculateRank (some auEx) (some 1)
      = some ((receivedPositiveCpms auEx).countP (fun x => decide ((1 : ℚ) < x)) + 1) :=
  (calculateRank_spec auEx 1).1 (by decide)

/-! ## C8: handler exceptions -/

unseal Rat.mul Rat.inv Rat.add Rat.sub in
/-- C8 (counterexample): the bidder-done handler body itself throws (the
    exception crosses the handler's own body and reaches the dispatch
    boundary) on a done-entry that reports a server response time for a bid id
    with no cached BidRecord, refuting the claim that every handler catches
    and locally absorbs failures in its own body. -/
theorem bidder_done_body_throws :
    (dispatchEvent env0 DEFAULT_CONFIG true 40 cacheResp (PbEvent.bidderDone doneBad)).threw = true := by
  decide

/-- C8 (amended): handlers do not catch inside their own bodies; the
    bidder-done handler is the only one that can fail, and it throws exactly on
    an entry whose ad unit exists, whose bid id has no cached BidRecord and
    which carries a server response time. The exception is absorbed one level
    up, at the dispatch boundary (track's try/catch), which keeps the partial
    mutations and continues, so one bad event never interrupts later events. -/
theorem handler_throw_absorbed_at_dispatch :
    (∀ env cfg sampled now c e,
        (dispatchEvent env cfg sampled now c e).threw
          = (match e with
             | PbEvent.bidderDone args => (handleBidderDone args c).2
             | _ => false)) ∧
      (∀ record (bid : BidderDoneBid),
        ((bidderDoneStep record bid).2 = true ↔
          ∃ au, alookup bid.adUnitCode record.adUnits = some au ∧
            alookup bid.bidId au.bids = none ∧ bid.serverResponseTimeMs.isSome = true)) ∧
      (∀ env now s e,
        (trackStep env now s e).1.auctions
          = (dispatchEvent env s.config s.sampled now s.auctions e).cache) := by
  refine ⟨?_, ?_, ?_⟩
  · intro env cfg sampled now c e
    cases e <;> rfl
  · intro record bid
    rcases hau : alookup bid.adUnitCode record.adUnits with _ | au
    · simp [bidderDoneStep, hau]
    · rcases hb : alookup bid.bidId au.bids with _ | cb
      · simp [bidderDoneStep, hau, hb]
      · simp [bidderDoneStep, hau, hb]
  · intro env now s e
    rfl

theorem trackStep_noop {env : Env} {now : ℕ} {s : AdapterState} {e : PbEvent}
    (hc : (dispatchEvent env s.config s.sampled now s.auctions e).cache = s.auctions)
    (ha : (dispatchEvent env s.config s.sampled now s.auctions e).actions = [])
    (ht : (dispatchEvent env s.config s.sampled now s.auctions e).armTimer = none) :
    trackStep env now s e = (s, []) := by
  unfold trackStep
  rw [hc, ha, ht]
  simp only [List.append_nil]

/-! ## C1: at-most-once auction delivery -/

theorem countAuctionPosts_sendWin (id : String) (sampled : Bool) (now : ℕ)
    (aid code : String) (c : Cache) :
    countAuctionPosts id (sendWinAnalytics sampled now aid code c) = 0 := by
  unfold sendWinAnalytics
  split
  · rfl
  · split
    · rfl
    · split
      · rfl
      · rfl

theorem countAuctionPosts_dispatch (id : String) (env : Env) (cfg : Config) (sampled : Bool)
    (now : ℕ) (c : Cache) (e : PbEvent) :
    countAuctionPosts id (dispatchEvent env cfg sampled now c e).actions = 0 := by
  cases e with
  | bidWon args =>
    show countAuctionPosts id (handleBidWon env cfg sampled now args c).2 = 0
    unfold handleBidWon
    split
    · rfl
    · dsimp only
      split
      · apply countAuctionPosts_sendWin
      · rfl
  | auctionInit args => rfl
  | bidRequested args => rfl
  | bidResponse args => rfl
  | noBid args => rfl
  | bidTimeout es => rfl
  | bidderDone args => rfl
  | bidderError args => rfl
  | auctionEnd args => rfl

theorem countAuctionPosts_send_ne {id id2 : String} (h : id2 ≠ id) (now : ℕ) (s : AdapterState) :
    countAuctionPosts id (sendAuctionAnalytics now id2 s).2 = 0 := by
  unfold sendAuctionAnalytics
  split
  · rfl
  · split
    · rfl
    · split
      · rfl
      · simp [countAuctionPosts, h]

unseal Rat.mul Rat.inv Rat.add Rat.sub in
/-- C1 (counterexample): the claim promises at most one auction-payload
    delivery attempt per auction even when auction-end re-enters during the
    debounce window. But the sent mark is only applied by the ajax completion
    callback, so when auction-end fires twice before the timer and both armed
    timers fire before any completion callback has run, the code POSTs the
    auction payload twice for the same auction id. -/
theorem double_auction_end_two_posts :
    countAuctionPosts "a1" (runTrace env0 s100 doubleEndTrace).2 = 2 := by
  decide

/-- C1 (amended): once the auction record carries sent = true (set by the ajax
    completion callback, by the unsampled bookkeeping path, or by a synchronous
    send failure), no step of the event loop emits a further auction-endpoint
    POST for that auction, and a re-entrant auction-end is a complete no-op
    that arms no timer. Before the sent mark, however, each re-entrant
    auction-end arms one more timer and can yield one more delivery attempt. -/
theorem sent_record_blocks_auction_post (env : Env) (s : AdapterState) (id : String)
    (record : AuctionRecord) (st : Step)
    (hrec : alookup id s.auctions = some record) (hsent : record.sent = true) :
    countAuctionPosts id (runStep env s st).2 = 0 ∧
      ∀ now, runStep env s (Step.ev now (PbEvent.auctionEnd { auctionId := id })) = (s, []) := by
  constructor
  · cases st with
    | ev now e => exact countAuctionPosts_dispatch id env s.config s.sampled now s.auctions e
    | timerFire now id2 =>
      show countAuctionPosts id
        (if id2 ∈ s.pendingTimers then
          sendAuctionAnalytics now id2 { s with pendingTimers := s.pendingTimers.erase id2 }
        else (s, [])).2 = 0
      split
      · by_cases hid : id2 = id
        · subst hid
          simp [sendAuctionAnalytics, hrec, hsent, countAuctionPosts]
        · exact countAuctionPosts_send_ne hid now _
      · rfl
    | ajaxComplete id2 =>
      simp only [runStep]
      split
      · split <;> rfl
      · rfl
    | evict id2 =>
      simp only [runStep]
      split <;> rfl
  · intro now
    apply trackStep_noop <;> simp [dispatchEvent, handleAuctionEnd, hrec, hsent]

/-- C1 (witness): the amended theorem applied to a state holding an already
    sent record: a timer fire emits nothing and auction-end is a no-op. -/
theorem sent_record_blocks_auction_post_w :
    countAuctionPosts "a1" (runStep env0 sSent (Step.timerFire 600 "a1")).2 = 0 ∧
      runStep env0 sSent (Step.ev 700 (PbEvent.auctionEnd { auctionId := "a1" })) = (sSent, []) := by
  have h := sent_record_blocks_auction_post env0 sSent "a1" recSent (Step.timerFire 600 "a1") rfl rfl
  exact ⟨h.1, h.2 700⟩

/-! ## C9: missing auction record means a silent no-op -/

theorem bidTimeout_all_miss {c : Cache} {es : List TimeoutEntry}
    (h : ∀ e ∈ es, alookup e.auctionId c = none) : handleBidTimeout es c = c := by
  induction es with
  | nil => rfl
  | cons e t ih =>
    have he : bidTimeoutEntry c e = c := by
      unfold bidTimeoutEntry
      rw [h e (List.mem_cons_self e t)]
    show List.foldl bidTimeoutEntry (bidTimeoutEntry c e) t = c
    rw [he]
    exact ih fun x hx => h x (List.mem_cons_of_mem e hx)

/-- C9: a mutating lifecycle event (anything but auction-init) whose resolved
    auction id — for bid-timeout, every entry's auction id; for bidder-error,
    the id after the nested-bidder-request fallback — has no record in the
    cache is a silent no-op: the handler does not throw, the adapter state is
    unchanged (all other records included) and nothing is sent. -/
theorem missing_record_noop (env : Env) (now : ℕ) (s : AdapterState) (e : PbEvent)
    (h : eventCacheMiss s.auctions e = true) :
    trackStep env now s e = (s, []) := by
  cases e with
  | auctionInit args => simp [eventCacheMiss] at h
  | bidRequested args =>
    simp only [eventCacheMiss, Option.isNone_iff_eq_none] at h
    apply trackStep_noop <;> simp [dispatchEvent, handleBidRequested, h]
  | bidResponse args =>
    simp only [eventCacheMiss, Option.isNone_iff_eq_none] at h
    apply trackStep_noop <;> simp [dispatchEvent, handleBidResponse, h]
  | noBid args =>
    simp only [eventCacheMiss, Option.isNone_iff_eq_none] at h
    apply trackStep_noop <;> simp [dispatchEvent, handleNoBid, h]
  | bidTimeout es =>
    simp only [eventCacheMiss, List.all_eq_true, Option.isNone_iff_eq_none] at h
    apply trackStep_noop <;> simp [dispatchEvent, bidTimeout_all_miss h]
  | bidderDone args =>
    simp only [eventCacheMiss, Option.isNone_iff_eq_none] at h
    apply trackStep_noop <;> simp [dispatchEvent, handleBidderDone, h]
  | bidderError args =>
    simp only [eventCacheMiss, Option.isNone_iff_eq_none] at h
    apply trackStep_noop <;> simp [dispatchEvent, handleBidderError, h]
  | auctionEnd args =>
    simp only [eventCacheMiss, Option.isNone_iff_eq_none] at h
    apply trackStep_noop <;> simp [dispatchEvent, handleAuctionEnd, h]
  | bidWon args =>
    simp only [eventCacheMiss, Option.isNone_iff_eq_none] at h
    apply trackStep_noop <;> simp [dispatchEvent, handleBidWon, h]

/-- C9 (witness): a no-bid event for an auction id the cache never saw leaves
    the freshly enabled adapter state untouched. -/
theorem missing_record_noop_w :
    trackStep env0 0 s100
      (PbEvent.noBid { auctionId := "ghost", adUnitCode := "slot1", bidder := "b", bidId := "x" })
      = (s100, []) :=
  missing_record_noop env0 0 s100
    (PbEvent.noBid { auctionId := "ghost", adUnitCode := "slot1", bidder := "b", bidId := "x" }) rfl

/-! ## C4: status overwriting -/

unseal Rat.mul Rat.inv Rat.add Rat.sub in
/-- C4 (counterexample): after the cached bid reached the terminal status
    received, a later no-bid event for the same bid id overwrites the status
    to no-bid, refuting the claim that a terminal status is never overwritten
    by a later no-bid or bid-timeout. -/
theorem nobid_overwrites_received_status :
    bidStatus cacheResp "a1" "slot1" "bid-123" = some BidStatus.received ∧
      bidStatus
        (handleNoBid { auctionId := "a1", adUnitCode := "slot1", bidder := "kargo", bidId := "bid-123" } cacheResp)
        "a1" "slot1" "bid-123" = some BidStatus.noBid := by
  decide

/-- C4 (amended): whenever a BidRecord exists for the bid id, a no-bid event
    unconditionally sets its status to no-bid and a bid-timeout entry
    unconditionally sets it to timeout — even over a terminal status — while a
    bid-won event never changes any status (it only sets the won flag). -/
theorem status_overwrite_semantics (c : Cache) (aid code bid bidderArg : String)
    (record : AuctionRecord) (au : AdUnitRecord) (b : BidRecord)
    (h1 : alookup aid c = some record) (h2 : alookup code record.adUnits = some au)
    (h3 : alookup bid au.bids = some b) :
    bidStatus (handleNoBid { auctionId := aid, adUnitCode := code, bidder := bidderArg, bidId := bid } c)
        aid code bid = some BidStatus.noBid ∧
      bidStatus (handleBidTimeout [{ auctionId := aid, adUnitCode := code, bidder := bidderArg, bidId := bid }] c)
        aid code bid = some BidStatus.timeout ∧
      ∀ env cfg sampled now (w : BidWonArgs) aid2 code2 bid2,
        bidStatus (handleBidWon env cfg sampled now w c).1 aid2 code2 bid2 = bidStatus c aid2 code2 bid2 := by
  refine ⟨?_, ?_, ?_⟩
  · simp [handleNoBid, h1, h2, h3, bidStatus, alookup_upsert_self]
  · show bidStatus (bidTimeoutEntry c _) aid code bid = some BidStatus.timeout
    simp [bidTimeoutEntry, h1, h2, h3, bidStatus, alookup_upsert_self]
  · intro env cfg sampled now w aid2 code2 bid2
    have hfst : ∀ (x : Cache) (P : Prop) (hd : Decidable P) (as bs : List Action),
        (@ite _ P hd (x, as) (x, bs)).1 = x := by
      intro x P hd as bs
      split <;> rfl
    have hst : ∀ b : BidRecord,
        ((if b.bidId = w.requestId ∨ b.bidder = w.bidderCode then
            { b with won := true } else b) : BidRecord).status = b.status := by
      intro b
      split <;> rfl
    rcases hw : alookup w.auctionId c with _ | record0
    · unfold handleBidWon
      rw [hw]
    · unfold handleBidWon
      rw [hw]
      dsimp only
      rcases hau : alookup w.adUnitCode record0.adUnits with _ | au0
      · rw [hfst]
        by_cases haid : w.auctionId = aid2
        · subst haid
          simp [bidStatus, alookup_upsert_self, hw]
        · simp [bidStatus, alookup_upsert_ne _ _ haid]
      · rw [hfst]
        by_cases haid : w.auctionId = aid2
        · subst haid
          by_cases hcode : w.adUnitCode = code2
          · subst hcode
            simp only [bidStatus, alookup_upsert_self, hw, hau, Option.some_bind]
            rw [alookup_mapVal]
            cases alookup bid2 au0.bids with
            | none => rfl
            | some b2 => exact congrArg some (hst b2)
          · simp only [bidStatus, alookup_upsert_self, hw, Option.some_bind]
            rw [alookup_upsert_ne _ _ hcode]
        · simp [bidStatus, alookup_upsert_ne _ _ haid]

/-- C4 (witness): the amended overwrite semantics evaluated on the concrete
    cache holding a received Kargo bid. -/
theorem status_overwrite_semantics_w :
    bidStatus (handleNoBid { auctionId := "a1", adUnitCode := "slot1", bidder := "k", bidId := "bid-123" } cacheResp)
        "a1" "slot1" "bid-123" = some BidStatus.noBid ∧
      bidStatus (handleBidTimeout [{ auctionId := "a1", adUnitCode := "slot1", bidder := "k", bidId := "bid-123" }] cacheResp)
        "a1" "slot1" "bid-123" = some BidStatus.timeout ∧
      bidStatus (handleBidWon env0 DEFAULT_CONFIG true 30 wonA cacheResp).1 "a1" "slot1" "bid-123"
        = bidStatus cacheResp "a1" "slot1" "bid-123" := by
  have h := status_overwrite_semantics cacheResp "a1" "slot1" "bid-123" "k" _ _ _ rfl rfl rfl
  exact ⟨h.1, h.2.1, h.2.2 env0 DEFAULT_CONFIG true 30 wonA "a1" "slot1" "bid-123"⟩

/-! ## C10: bid-response without a prior bid-requested -/

/-- C10: a bid-response whose auction record and ad slot exist but whose
    resolved bid id has no BidRecord still creates a fresh record with status
    received under that id, grows the slot's bid map by one, and appends one
    entry to the flat responses-received sequence, so the payload's aggregate
    received count includes responses never recorded as requested. -/
theorem bid_response_creates_record (env : Env) (args : BidResponseArgs) (c : Cache)
    (record : AuctionRecord) (au : AdUnitRecord)
    (h1 : alookup args.auctionId c = some record)
    (h2 : alookup args.adUnitCode record.adUnits = some au)
    (h3 : alookup (if args.originalRequestId ≠ "" then args.originalRequestId else args.requestId) au.bids = none) :
    ∃ record2 au2 b,
      alookup args.auctionId (handleBidResponse env args c) = some record2 ∧
      alookup args.adUnitCode record2.adUnits = some au2 ∧
      alookup (if args.originalRequestId ≠ "" then args.originalRequestId else args.requestId) au2.bids = some b ∧
      b.status = BidStatus.received ∧
      b.bidder = (if args.bidderCode ≠ "" then args.bidderCode else args.bidder) ∧
      au2.bids.length = au.bids.length + 1 ∧
      record2.bidsReceived = record.bidsReceived ++
        [{ adUnitCode := args.adUnitCode
           bidder := if args.bidderCode ≠ "" then args.bidderCode else args.bidder
           cpm := args.cpm
           cpmUsd := convertToUsd env args.cpm args.currency }] ∧
      ∀ now, (formatAuctionPayload now args.auctionId record2).auction.totalBidsReceived
          = (formatAuctionPayload now args.auctionId record).auction.totalBidsReceived + 1 := by
  unfold handleBidResponse
  rw [h1]
  dsimp only
  rw [h2]
  dsimp only
  refine ⟨_, _, _, alookup_upsert_self _ _ _, alookup_upsert_self _ _ _,
    alookup_upsert_self _ _ _, rfl, rfl, upsert_length_of_none _ h3, rfl, ?_⟩
  intro now
  simp [formatAuctionPayload]

/-- C10 (witness): a bid-response on a cache where the auction was initialized
    but no bid was ever requested. -/
theorem bid_response_creates_record_w :
    ∃ record2 au2 b,
      alookup "a1" (handleBidResponse env0 respA cacheInit) = some record2 ∧
      alookup "slot1" record2.adUnits = some au2 ∧
      alookup "bid-123" au2.bids = some b ∧
      b.status = BidStatus.received ∧
      b.bidder = "kargo" ∧
      au2.bids.length = 0 + 1 ∧
      record2.bidsReceived = [] ++
        [{ adUnitCode := "slot1", bidder := "kargo"
           cpm := respA.cpm, cpmUsd := convertToUsd env0 respA.cpm respA.currency }] ∧
      (formatAuctionPayload 100 "a1" record2).auction.totalBidsReceived
        = (formatAuctionPayload 100 "a1" ((alookup "a1" cacheInit).getD record2)).auction.totalBidsReceived + 1 := by
  obtain ⟨r2, a2, b, q1, q2, q3, q4, q5, q6, q7, q8⟩ :=
    bid_response_creates_record env0 respA cacheInit _ _ rfl rfl rfl
  exact ⟨r2, a2, b, q1, q2, q3, q4, q5, q6, q7, q8 100⟩

/-! ## C3: consent-string noninterference -/

unseal Rat.mul Rat.inv Rat.add Rat.sub in
/-- C3 (counterexample): the USP consent string is carried verbatim into the
    delivered auction payload ("1YNN" appears as-is), and two runs that differ
    only in that raw string deliver different payloads, refuting the claim for
    the USP string. -/
theorem usp_consent_string_appears_verbatim :
    ((firstAuctionPayload (runTrace env0 s100 (traceFor initA)).2).bind fun p =>
        p.consent.bind fun cs => cs.usp) = some "1YNN" ∧
      ((firstAuctionPayload (runTrace env0 s100 (traceFor initUspVariant)).2).bind fun p =>
        p.consent.bind fun cs => cs.usp) = some "1YYY" ∧
      (runTrace env0 s100 (traceFor initA)).2 ≠ (runTrace env0 s100 (traceFor initUspVariant)).2 := by
  decide

theorem extractConsent_equiv {b1 b2 : BidderRequest} (h : bidderRequestEquiv b1 b2) :
    extractConsent (some b1) = extractConsent (some b2) := by
  obtain ⟨hbc, hri, husp, hcoppa, hgdpr, hgpp⟩ := h
  have hg : (b1.gdprConsent.map fun g =>
      ({ applies := g.gdprApplies
         consentString := if strTruthy g.consentString then some "[present]" else none } : ConsentGdpr))
      = b2.gdprConsent.map fun g =>
      ({ applies := g.gdprApplies
         consentString := if strTruthy g.consentString then some "[present]" else none } : ConsentGdpr) := by
    rcases hb1 : b1.gdprConsent with _ | g1 <;> rcases hb2 : b2.gdprConsent with _ | g2
    · rfl
    · rw [hb1, hb2] at hgdpr
      exact hgdpr.elim
    · rw [hb1, hb2] at hgdpr
      exact hgdpr.elim
    · rw [hb1, hb2] at hgdpr
      obtain ⟨ha, hs⟩ := hgdpr
      simp [ha, hs]
  have hgp : (b1.gppConsent.map fun g =>
      ({ gppString := if strTruthy g.gppString then some "[present]" else none
         applicableSections := g.applicableSections } : ConsentGpp))
      = b2.gppConsent.map fun g =>
      ({ gppString := if strTruthy g.gppString then some "[present]" else none
         applicableSections := g.applicableSections } : ConsentGpp) := by
    rcases hb1 : b1.gppConsent with _ | g1 <;> rcases hb2 : b2.gppConsent with _ | g2
    · rfl
    · rw [hb1, hb2] at hgpp
      exact hgpp.elim
    · rw [hb1, hb2] at hgpp
      exact hgpp.elim
    · rw [hb1, hb2] at hgpp
      obtain ⟨ha, hs⟩ := hgpp
      simp [ha, hs]
  unfold extractConsent
  dsimp only
  rw [husp, hcoppa, hg, hgp]

theorem forall₂_bidderCode {l1 l2 : List BidderRequest}
    (h : List.Forall₂ bidderRequestEquiv l1 l2) :
    (l1.map fun br => br.bidderCode) = l2.map fun br => br.bidderCode := by
  induction h with
  | nil => rfl
  | cons hrel _ ih => simp only [List.map_cons, ih, hrel.1]

theorem forall₂_head_facts {l1 l2 : List BidderRequest}
    (h : List.Forall₂ bidderRequestEquiv l1 l2) :
    extractConsent l1.head? = extractConsent l2.head? ∧
      (l1.head?.bind fun br => br.refererInfo) = l2.head?.bind fun br => br.refererInfo := by
  cases h with
  | nil => exact ⟨rfl, rfl⟩
  | cons hrel _ => exact ⟨extractConsent_equiv hrel, by simp [hrel.2.1]⟩

theorem handleAuctionInit_equiv {a1 a2 : AuctionInitArgs} (h : initArgsEquiv a1 a2)
    (now : ℕ) (c : Cache) :
    handleAuctionInit now a1 c = handleAuctionInit now a2 c := by
  obtain ⟨hid, hto, hau, hbr⟩ := h
  have hfacts : ((a1.bidderRequests.getD []).map fun br => br.bidderCode)
        = ((a2.bidderRequests.getD []).map fun br => br.bidderCode)
      ∧ extractConsent (a1.bidderRequests.getD []).head?
        = extractConsent (a2.bidderRequests.getD []).head?
      ∧ ((a1.bidderRequests.getD []).head?.bind fun br => br.refererInfo)
        = (a2.bidderRequests.getD []).head?.bind fun br => br.refererInfo := by
    rcases hb1 : a1.bidderRequests with _ | l1 <;> rcases hb2 : a2.bidderRequests with _ | l2 <;>
      rw [hb1, hb2] at hbr
    · exact ⟨rfl, rfl, rfl⟩
    · exact hbr.elim
    · exact hbr.elim
    · have hf := forall₂_head_facts hbr
      exact ⟨forall₂_bidderCode hbr, hf.1, hf.2⟩
  unfold handleAuctionInit
  dsimp only
  rw [hid, hto, hau, hfacts.1, hfacts.2.1, hfacts.2.2]

/-- C3 (amended): two auction-init events that differ only in the raw GDPR and
    GPP consent string values (with presence preserved) make the adapter behave
    identically from then on: any subsequent schedule of events, timers and
    completions produces the same states and the same delivered payloads. The
    USP string is exempted: it is carried verbatim (see the counterexample). -/
theorem consent_string_noninterference (env : Env) (s : AdapterState) (now : ℕ)
    (a1 a2 : AuctionInitArgs) (rest : List Step) (h : initArgsEquiv a1 a2) :
    runTrace env s (Step.ev now (PbEvent.auctionInit a1) :: rest)
      = runTrace env s (Step.ev now (PbEvent.auctionInit a2) :: rest) := by
  have hc := handleAuctionInit_equiv h now s.auctions
  simp only [runTrace, runStep, trackStep, dispatchEvent, hc]

/-- C3 (witness): the noninterference theorem applied to two concrete inits
    differing only in the raw GDPR consent string. -/
theorem consent_string_noninterference_w :
    initArgsEquiv initA initGdprVariant ∧
      runTrace env0 s100 (Step.ev 0 (PbEvent.auctionInit initA) :: restEndFire)
        = runTrace env0 s100 (Step.ev 0 (PbEvent.auctionInit initGdprVariant) :: restEndFire) := by
  have h : initArgsEquiv initA initGdprVariant := by
    refine ⟨rfl, rfl, rfl, ?_⟩
    show List.Forall₂ bidderRequestEquiv [brKargo, brAppnexus] [brKargoGdprVariant, brAppnexus]
    refine List.Forall₂.cons ?_ (List.Forall₂.cons ?_ List.Forall₂.nil)
    · exact ⟨rfl, rfl, rfl, rfl, ⟨rfl, rfl⟩, trivial⟩
    · exact ⟨rfl, rfl, rfl, rfl, trivial, trivial⟩
  exact ⟨h, consent_string_noninterference env0 s100 0 initA initGdprVariant restEndFire h⟩


/-! ## C7: win payload correctness -/

/-- C7: for every bid-won event on an existing, unsent auction record with win
    events enabled in a sampled session, exactly one win POST is emitted; its
    winner.bidder equals the event's bidder code; its kargo.participated flag
    is true iff the adapter's own bidder has at least one BidRecord in that ad
    slot's bid map; and when participated is false the kargo cpm, margin and
    rank are all null. -/
theorem bid_won_payload_correct (env : Env) (now : ℕ) (s : AdapterState) (args : BidWonArgs)
    (record : AuctionRecord)
    (hrec : alookup args.auctionId s.auctions = some record)
    (hsent : record.sent = false)
    (hwin : s.config.sendWinEvents = true)
    (hsamp : s.sampled = true) :
    ∃ payload,
      (trackStep env now s (PbEvent.bidWon args)).2 = [Action.postWin args.auctionId payload] ∧
      payload.winner.bidder = args.bidderCode ∧
      (payload.kargo.participated = true ↔
        ∃ au, alookup args.adUnitCode record.adUnits = some au ∧
          ((au.bids.map Prod.snd).any fun b => b.isKargo) = true) ∧
      (payload.kargo.participated = false →
        payload.kargo.cpm = none ∧ payload.kargo.margin = none ∧ payload.kargo.rank = none) := by
  have hstep : (trackStep env now s (PbEvent.bidWon args)).2
      = (handleBidWon env s.config s.sampled now args s.auctions).2 := rfl
  rw [hstep]
  unfold handleBidWon
  rw [hrec]
  dsimp only
  rw [hwin]
  rcases hau : alookup args.adUnitCode record.adUnits with _ | au
  · dsimp only
    rw [hsent]
    rw [if_pos (show (true && !false) = true from rfl)]
    dsimp only
    unfold sendWinAnalytics
    rw [alookup_upsert_self]
    dsimp only
    rw [hsamp]
    rw [if_neg (show ¬((!true) = true) from by simp)]
    unfold formatWinPayload
    rw [alookup_upsert_self]
    dsimp only
    rw [hau]
    refine ⟨_, rfl, rfl, ?_, ?_⟩
    · constructor
      · intro hfalse
        cases hfalse
      · rintro ⟨au2, hau2, _⟩
        cases hau2
    · intro _
      exact ⟨rfl, rfl, rfl⟩
  · dsimp only
    rw [hsent]
    rw [if_pos (show (true && !false) = true from rfl)]
    dsimp only
    unfold sendWinAnalytics
    rw [alookup_upsert_self]
    dsimp only
    rw [hsamp]
    rw [if_neg (show ¬((!true) = true) from by simp)]
    unfold formatWinPayload
    rw [alookup_upsert_self]
    dsimp only
    rw [alookup_upsert_self]
    rw [Option.some_bind]
    dsimp only
    rw [mapVal_snd]
    have hpres : ∀ b : BidRecord,
        ((if b.bidId = args.requestId ∨ b.bidder = args.bidderCode then
            { b with won := true } else b) : BidRecord).isKargo = b.isKargo := by
      intro b
      split <;> rfl
    have hiso := find?_isKargo_map _ hpres (au.bids.map Prod.snd)
    rcases hfind : ((au.bids.map Prod.snd).map fun b =>
        if b.bidId = args.requestId ∨ b.bidder = args.bidderCode then
          { b with won := true } else b).find? (fun b => b.isKargo) with _ | kb
    · rw [hfind] at hiso
      rw [hfind]
      refine ⟨_, rfl, rfl, ?_, ?_⟩
      · constructor
        · intro hfalse
          cases hfalse
        · rintro ⟨au2, hau2, hany⟩
          cases hau2
          rw [hany] at hiso
          cases hiso
      · intro _
        exact ⟨rfl, rfl, rfl⟩
    · rw [hfind] at hiso
      rw [hfind]
      refine ⟨_, rfl, rfl, ?_, ?_⟩
      · constructor
        · intro _
          exact ⟨au, rfl, hiso.symm⟩
        · intro _
          rfl
      · intro hfalse
        cases hfalse

unseal Rat.mul Rat.inv Rat.add Rat.sub in
/-- C7 (witness): the theorem applied to the concrete bid-won event on the
    cache holding the received Kargo bid. -/
theorem bid_won_payload_correct_w :
    ∃ payload,
      (trackStep env0 30 sResp (PbEvent.bidWon wonA)).2 = [Action.postWin "a1" payload] ∧
      payload.winner.bidder = "kargo" := by
  obtain ⟨p, q1, q2, _, _⟩ := bid_won_payload_correct env0 30 sResp wonA _ rfl rfl rfl rfl
  exact ⟨p, q1, q2⟩

end KargoAnalytics
